import Mathlib

/-!
Verification of the GPT model of qdl.js: the GUID Partition Table parser,
builder and A/B slot attribute logic implemented in `src/gpt.js`.

Strings are embedded as lists of UTF-16 code units (`List Nat`), byte
buffers as lists of bytes (`List Nat`).  64-bit attribute words are `Nat`
values; JavaScript `BigInt` bitwise complement `~m` applied to a value
below `2 ^ 64` coincides with XOR against `2 ^ 64 - 1`, which is how the
masks are written here.  Checksums are kept as unsigned 32-bit patterns;
the JavaScript library returns the same bits as a signed 32-bit integer,
and both the equality and the zero tests used by the code are invariant
under that reinterpretation.
-/

/-- The all-zero partition type GUID, `TYPE_EFI_UNUSED` in the source,
represented by its sixteen zero bytes (the hexadecimal string rendering of
a GUID is injective, so equality of rendered GUIDs is equality of these
byte lists). -/
def TYPE_EFI_UNUSED : List Nat := List.replicate 16 0

/-- One GPT partition entry as decoded by the code: type and unique GUID
(as reordered bytes), LBAs, the 64-bit attribute word, and the name as
UTF-16 code units. -/
structure PartEntry where
  type : List Nat
  unique : List Nat
  startingLba : Nat
  endingLba : Nat
  attributes : Nat
  name : List Nat
deriving DecidableEq, Inhabited

/-- The decoded GPT header, mirroring the `GPTHeader` struct of the
source field by field. -/
structure GPTHeader where
  signature : List Nat
  revision : Nat
  headerSize : Nat
  headerCrc32 : Nat
  reserved : Nat
  currentLba : Nat
  alternateLba : Nat
  firstUsableLba : Nat
  lastUsableLba : Nat
  diskGuid : List Nat
  partEntriesStartLba : Nat
  numPartEntries : Nat
  partEntrySize : Nat
  partEntriesCrc32 : Nat
deriving DecidableEq, Inhabited

/-- The `GPT` aggregate: sector size, parsed header, and the ordered
sequence of partition entries. -/
structure GPT where
  sectorSize : Nat
  header : GPTHeader
  partEntries : List PartEntry
deriving DecidableEq, Inhabited

/-! ## Qualcomm A/B attribute bit constants (from the source) -/

def PART_ATT_PRIORITY_BIT : Nat := 48
def PART_ATT_ACTIVE_BIT : Nat := 50
def PART_ATT_RETRY_CNT_BIT : Nat := 51
def PART_ATT_SUCCESS_BIT : Nat := 54
def PART_ATT_UNBOOTABLE_BIT : Nat := 55

def PART_ATT_PRIORITY_MASK : Nat := 0x3 <<< PART_ATT_PRIORITY_BIT
def PART_ATT_ACTIVE_VAL : Nat := 1 <<< PART_ATT_ACTIVE_BIT
def PART_ATT_RETRY_MASK : Nat := 0x7 <<< PART_ATT_RETRY_CNT_BIT
def PART_ATT_SUCCESS_VAL : Nat := 1 <<< PART_ATT_SUCCESS_BIT
def PART_ATT_UNBOOTABLE_VAL : Nat := 1 <<< PART_ATT_UNBOOTABLE_BIT

def MAX_PRIORITY : Nat := 3
def MAX_RETRY_COUNT : Nat := 7

/-- All 64 attribute bits set; AND against `ALL64 ^^^ m` models the
JavaScript BigInt expression `x & ~m` for `x < 2 ^ 64`. -/
def ALL64 : Nat := 2 ^ 64 - 1

/-- The five decoded A/B flags, mirroring `parseABFlags` in the source. -/
structure ABFlags where
  priority : Nat
  active : Bool
  triesRemaining : Nat
  successful : Bool
  unbootable : Bool
deriving DecidableEq

/-- `parseABFlags(attributes)` from the source. -/
def parseABFlags (a : Nat) : ABFlags :=
  { priority := (a &&& PART_ATT_PRIORITY_MASK) >>> PART_ATT_PRIORITY_BIT
    active := decide (a &&& PART_ATT_ACTIVE_VAL ≠ 0)
    triesRemaining := (a &&& PART_ATT_RETRY_MASK) >>> PART_ATT_RETRY_CNT_BIT
    successful := decide (a &&& PART_ATT_SUCCESS_VAL ≠ 0)
    unbootable := decide (a &&& PART_ATT_UNBOOTABLE_VAL ≠ 0) }

/-! ## Name conventions

UTF-16 code unit lists for the string constants used by the slot logic. -/

/-- `"boot"` -/
def strBOOT : List Nat := [98, 111, 111, 116]
/-- `"boot_"` -/
def strBOOTU : List Nat := [98, 111, 111, 116, 95]
/-- `"_a"` -/
def suffixA : List Nat := [95, 97]
/-- `"_b"` -/
def suffixB : List Nat := [95, 98]
/-- `"a"` -/
def slotA : List Nat := [97]
/-- `"b"` -/
def slotB : List Nat := [98]

/-- `name.slice(-2)`: the last two code units of a name (the whole name
when it is shorter than two units, exactly as in JavaScript). -/
def lastTwo (l : List Nat) : List Nat := l.drop (l.length - 2)

/-! ## setActiveSlot -/

/-- Attribute update for the boot entry of the activated slot:
priority=3, active=1, retry=7, successful=0, unbootable=0. -/
def bootActiveAttr (a : Nat) : Nat :=
  (a &&& (ALL64 ^^^ (PART_ATT_PRIORITY_MASK ||| PART_ATT_ACTIVE_VAL |||
      PART_ATT_RETRY_MASK ||| PART_ATT_SUCCESS_VAL ||| PART_ATT_UNBOOTABLE_VAL)))
    ||| ((MAX_PRIORITY <<< PART_ATT_PRIORITY_BIT) ||| PART_ATT_ACTIVE_VAL |||
      (MAX_RETRY_COUNT <<< PART_ATT_RETRY_CNT_BIT))

/-- Attribute update for the boot entry of the other slot:
priority=2, active=0, other flags unchanged. -/
def bootInactiveAttr (a : Nat) : Nat :=
  (a &&& (ALL64 ^^^ (PART_ATT_PRIORITY_MASK ||| PART_ATT_ACTIVE_VAL)))
    ||| ((MAX_PRIORITY - 1) <<< PART_ATT_PRIORITY_BIT)

/-- Non-boot entry of the activated slot: set the ACTIVE bit only. -/
def markActiveAttr (a : Nat) : Nat := a ||| PART_ATT_ACTIVE_VAL

/-- Non-boot entry of the other slot: clear the ACTIVE bit only. -/
def markInactiveAttr (a : Nat) : Nat := a &&& (ALL64 ^^^ PART_ATT_ACTIVE_VAL)

/-- The per-entry body of the `setActiveSlot` loop. -/
def updateEntry (slot : List Nat) (e : PartEntry) : PartEntry :=
  if e.type = TYPE_EFI_UNUSED then e
  else if lastTwo e.name ≠ suffixA ∧ lastTwo e.name ≠ suffixB then e
  else if strBOOT.isPrefixOf e.name then
    if lastTwo e.name = 95 :: slot then
      { e with attributes := bootActiveAttr e.attributes }
    else
      { e with attributes := bootInactiveAttr e.attributes }
  else
    if lastTwo e.name = 95 :: slot then
      { e with attributes := markActiveAttr e.attributes }
    else
      { e with attributes := markInactiveAttr e.attributes }

/-- `GPT.setActiveSlot(slot)`: `none` models the `Invalid slot` throw;
otherwise every entry passes through `updateEntry`. -/
def setActiveSlot (g : GPT) (slot : List Nat) : Option GPT :=
  if slot ≠ slotA ∧ slot ≠ slotB then none
  else some { g with partEntries := g.partEntries.map (updateEntry slot) }

/-! ## getActiveSlot -/

/-- The `getActiveSlot` scan: walks the entries keeping the best slot and
its priority (`-1` initially, so any active boot entry wins first). -/
def getActiveSlotGo : List PartEntry → Option (List Nat) → Int → Option (List Nat)
  | [], best, _ => best
  | e :: rest, best, bestPriority =>
    if e.type = TYPE_EFI_UNUSED then getActiveSlotGo rest best bestPriority
    else if ¬ (strBOOTU.isPrefixOf e.name) then getActiveSlotGo rest best bestPriority
    else if lastTwo e.name ≠ suffixA ∧ lastTwo e.name ≠ suffixB then
      getActiveSlotGo rest best bestPriority
    else if (parseABFlags e.attributes).active ∧
        bestPriority < ((parseABFlags e.attributes).priority : Int) then
      getActiveSlotGo rest (some (if lastTwo e.name = suffixA then slotA else slotB))
        ((parseABFlags e.attributes).priority : Int)
    else getActiveSlotGo rest best bestPriority

/-- `GPT.getActiveSlot()` from the source. -/
def getActiveSlot (g : GPT) : Option (List Nat) :=
  getActiveSlotGo g.partEntries none (-1)

/-! ## Bit-level helper lemmas -/

theorem and_or_and_eq (a m v w : Nat) (h : m &&& w = 0) :
    ((a &&& m) ||| v) &&& w = v &&& w := by
  apply Nat.eq_of_testBit_eq
  intro i
  have hb : (m &&& w).testBit i = Nat.testBit 0 i := by rw [h]
  simp only [Nat.testBit_and, Nat.testBit_or, Nat.zero_testBit] at hb ⊢
  cases hm : m.testBit i <;> cases hw : w.testBit i <;> simp_all

theorem and_or_and_keep (a m v w : Nat) (hv : v &&& w = 0) (hm : m &&& w = w) :
    ((a &&& m) ||| v) &&& w = a &&& w := by
  apply Nat.eq_of_testBit_eq
  intro i
  have hb : (v &&& w).testBit i = Nat.testBit 0 i := by rw [hv]
  have hb2 : (m &&& w).testBit i = w.testBit i := by rw [hm]
  simp only [Nat.testBit_and, Nat.testBit_or, Nat.zero_testBit] at hb hb2 ⊢
  cases hw : w.testBit i <;> simp_all

theorem lor_and_self (a v : Nat) : (a ||| v) &&& v = v := by
  apply Nat.eq_of_testBit_eq
  intro i
  simp only [Nat.testBit_and, Nat.testBit_or]
  cases a.testBit i <;> cases v.testBit i <;> rfl

theorem testBit_and_or_of (a m v i : Nat) (hm : m.testBit i = true)
    (hv : v.testBit i = false) : ((a &&& m) ||| v).testBit i = a.testBit i := by
  simp [Nat.testBit_and, Nat.testBit_or, hm, hv]

/-! ## Effect of each attribute update on the decoded A/B flags -/

theorem parseABFlags_bootActive (a : Nat) :
    parseABFlags (bootActiveAttr a) = ⟨3, true, 7, false, false⟩ := by
  unfold parseABFlags bootActiveAttr
  simp only [ABFlags.mk.injEq]
  refine ⟨?_, ?_, ?_, ?_, ?_⟩
  · rw [and_or_and_eq _ _ _ _ (by decide)]; decide
  · rw [and_or_and_eq _ _ _ _ (by decide)]; decide
  · rw [and_or_and_eq _ _ _ _ (by decide)]; decide
  · rw [and_or_and_eq _ _ _ _ (by decide)]; decide
  · rw [and_or_and_eq _ _ _ _ (by decide)]; decide

theorem parseABFlags_bootInactive (a : Nat) :
    parseABFlags (bootInactiveAttr a) =
      ⟨2, false, (parseABFlags a).triesRemaining, (parseABFlags a).successful,
        (parseABFlags a).unbootable⟩ := by
  unfold parseABFlags bootInactiveAttr
  simp only [ABFlags.mk.injEq]
  refine ⟨?_, ?_, ?_, ?_, ?_⟩
  · rw [and_or_and_eq _ _ _ _ (by decide)]; decide
  · rw [and_or_and_eq _ _ _ _ (by decide)]; decide
  · rw [and_or_and_keep _ _ _ _ (by decide) (by decide)]
  · rw [and_or_and_keep _ _ _ _ (by decide) (by decide)]
  · rw [and_or_and_keep _ _ _ _ (by decide) (by decide)]

theorem parseABFlags_markActive (a : Nat) :
    (parseABFlags (markActiveAttr a)).active = true := by
  simp only [parseABFlags, markActiveAttr]
  simp only [lor_and_self a PART_ATT_ACTIVE_VAL]
  decide

theorem parseABFlags_markInactive (a : Nat) :
    (parseABFlags (markInactiveAttr a)).active = false := by
  simp only [parseABFlags, markInactiveAttr]
  have h2 : a &&& (ALL64 ^^^ PART_ATT_ACTIVE_VAL) &&& PART_ATT_ACTIVE_VAL = 0 := by
    rw [Nat.and_assoc, show ((ALL64 ^^^ PART_ATT_ACTIVE_VAL) &&& PART_ATT_ACTIVE_VAL) = 0 from
      by decide, Nat.and_zero]
  simp only [h2]
  decide

/-! ## Bit preservation of each attribute update -/

theorem bootActiveAttr_testBit (a i : Nat) (hi : i < 48 ∨ (56 ≤ i ∧ i ≤ 63)) :
    (bootActiveAttr a).testBit i = a.testBit i := by
  unfold bootActiveAttr
  refine testBit_and_or_of a _ _ i ?_ ?_
  · rw [show (ALL64 ^^^ (PART_ATT_PRIORITY_MASK ||| PART_ATT_ACTIVE_VAL |||
        PART_ATT_RETRY_MASK ||| PART_ATT_SUCCESS_VAL ||| PART_ATT_UNBOOTABLE_VAL)) =
        ((2 ^ 48 - 1) ||| ((2 ^ 8 - 1) <<< 56)) from by decide]
    simp only [Nat.testBit_or, Nat.testBit_shiftLeft, Nat.testBit_two_pow_sub_one]
    simp only [Bool.or_eq_true, Bool.and_eq_true, decide_eq_true_eq]
    omega
  · rw [show ((MAX_PRIORITY <<< PART_ATT_PRIORITY_BIT) ||| PART_ATT_ACTIVE_VAL |||
        (MAX_RETRY_COUNT <<< PART_ATT_RETRY_CNT_BIT)) = ((2 ^ 6 - 1) <<< 48) from by decide]
    rw [Bool.eq_false_iff]
    intro hcon
    simp only [Nat.testBit_shiftLeft, Bool.and_eq_true, decide_eq_true_eq,
      Nat.testBit_two_pow_sub_one] at hcon
    omega

theorem bootInactiveAttr_testBit (a i : Nat) (hi : i < 48 ∨ (56 ≤ i ∧ i ≤ 63)) :
    (bootInactiveAttr a).testBit i = a.testBit i := by
  unfold bootInactiveAttr
  refine testBit_and_or_of a _ _ i ?_ ?_
  · rw [show (ALL64 ^^^ (PART_ATT_PRIORITY_MASK ||| PART_ATT_ACTIVE_VAL)) =
        ((2 ^ 48 - 1) ||| ((2 ^ 13 - 1) <<< 51)) from by decide]
    simp only [Nat.testBit_or, Nat.testBit_shiftLeft, Nat.testBit_two_pow_sub_one]
    simp only [Bool.or_eq_true, Bool.and_eq_true, decide_eq_true_eq]
    omega
  · rw [show ((MAX_PRIORITY - 1) <<< PART_ATT_PRIORITY_BIT) = (2 ^ 49 : Nat) from by decide]
    rw [Bool.eq_false_iff]
    intro hcon
    simp only [Nat.testBit_two_pow, decide_eq_true_eq] at hcon
    omega

theorem markActiveAttr_testBit (a i : Nat) (hi : i ≠ 50) :
    (markActiveAttr a).testBit i = a.testBit i := by
  unfold markActiveAttr
  rw [show PART_ATT_ACTIVE_VAL = (2 ^ 50 : Nat) from by decide]
  simp only [Nat.testBit_or, Nat.testBit_two_pow]
  rw [decide_eq_false (by omega)]
  simp

theorem markInactiveAttr_testBit (a i : Nat) (ha : a < 2 ^ 64) (hi : i ≠ 50) :
    (markInactiveAttr a).testBit i = a.testBit i := by
  unfold markInactiveAttr
  rcases Nat.lt_or_ge i 64 with h64 | h64
  · have hm : (ALL64 ^^^ PART_ATT_ACTIVE_VAL).testBit i = true := by
      rw [show (ALL64 ^^^ PART_ATT_ACTIVE_VAL) =
        ((2 ^ 50 - 1) ||| ((2 ^ 13 - 1) <<< 51)) from by decide]
      simp only [Nat.testBit_or, Nat.testBit_shiftLeft, Nat.testBit_two_pow_sub_one]
      simp only [Bool.or_eq_true, Bool.and_eq_true, decide_eq_true_eq]
      omega
    simp [Nat.testBit_and, hm]
  · have hlt : a < 2 ^ i :=
      lt_of_lt_of_le ha (Nat.pow_le_pow_right (by omega) h64)
    simp [Nat.testBit_and, Nat.testBit_lt_two_pow hlt]

/-! ## Idempotence of each attribute update -/

theorem bootActiveAttr_idem (a : Nat) :
    bootActiveAttr (bootActiveAttr a) = bootActiveAttr a := by
  unfold bootActiveAttr
  rw [and_or_and_keep _ _ _ _ (by decide) (Nat.and_self _)]

theorem bootInactiveAttr_idem (a : Nat) :
    bootInactiveAttr (bootInactiveAttr a) = bootInactiveAttr a := by
  unfold bootInactiveAttr
  rw [and_or_and_keep _ _ _ _ (by decide) (Nat.and_self _)]

theorem markActiveAttr_idem (a : Nat) :
    markActiveAttr (markActiveAttr a) = markActiveAttr a := by
  unfold markActiveAttr
  rw [Nat.or_assoc, Nat.or_self]

theorem markInactiveAttr_idem (a : Nat) :
    markInactiveAttr (markInactiveAttr a) = markInactiveAttr a := by
  unfold markInactiveAttr
  rw [Nat.and_assoc, Nat.and_self]

/-! ## Branch characterization of updateEntry -/

theorem updateEntry_skip_type (s : List Nat) (e : PartEntry)
    (h : e.type = TYPE_EFI_UNUSED) : updateEntry s e = e := by
  unfold updateEntry
  rw [if_pos h]

theorem updateEntry_skip_suffix (s : List Nat) (e : PartEntry)
    (h1 : ¬ e.type = TYPE_EFI_UNUSED)
    (h2 : lastTwo e.name ≠ suffixA ∧ lastTwo e.name ≠ suffixB) : updateEntry s e = e := by
  unfold updateEntry
  rw [if_neg h1, if_pos h2]

theorem updateEntry_boot_match (s : List Nat) (e : PartEntry)
    (h1 : ¬ e.type = TYPE_EFI_UNUSED)
    (h2 : ¬ (lastTwo e.name ≠ suffixA ∧ lastTwo e.name ≠ suffixB))
    (h3 : strBOOT.isPrefixOf e.name = true)
    (h4 : lastTwo e.name = 95 :: s) :
    updateEntry s e = { e with attributes := bootActiveAttr e.attributes } := by
  unfold updateEntry
  rw [if_neg h1, if_neg h2, if_pos h3, if_pos h4]

theorem updateEntry_boot_nonmatch (s : List Nat) (e : PartEntry)
    (h1 : ¬ e.type = TYPE_EFI_UNUSED)
    (h2 : ¬ (lastTwo e.name ≠ suffixA ∧ lastTwo e.name ≠ suffixB))
    (h3 : strBOOT.isPrefixOf e.name = true)
    (h4 : ¬ (lastTwo e.name = 95 :: s)) :
    updateEntry s e = { e with attributes := bootInactiveAttr e.attributes } := by
  unfold updateEntry
  rw [if_neg h1, if_neg h2, if_pos h3, if_neg h4]

theorem updateEntry_nonboot_match (s : List Nat) (e : PartEntry)
    (h1 : ¬ e.type = TYPE_EFI_UNUSED)
    (h2 : ¬ (lastTwo e.name ≠ suffixA ∧ lastTwo e.name ≠ suffixB))
    (h3 : ¬ (strBOOT.isPrefixOf e.name = true))
    (h4 : lastTwo e.name = 95 :: s) :
    updateEntry s e = { e with attributes := markActiveAttr e.attributes } := by
  unfold updateEntry
  rw [if_neg h1, if_neg h2, if_neg h3, if_pos h4]

theorem updateEntry_nonboot_nonmatch (s : List Nat) (e : PartEntry)
    (h1 : ¬ e.type = TYPE_EFI_UNUSED)
    (h2 : ¬ (lastTwo e.name ≠ suffixA ∧ lastTwo e.name ≠ suffixB))
    (h3 : ¬ (strBOOT.isPrefixOf e.name = true))
    (h4 : ¬ (lastTwo e.name = 95 :: s)) :
    updateEntry s e = { e with attributes := markInactiveAttr e.attributes } := by
  unfold updateEntry
  rw [if_neg h1, if_neg h2, if_neg h3, if_neg h4]

/-- Any `setActiveSlot` update leaves the bits outside 48..55 of any entry
unchanged; shared workhorse for the frame and functional claims. -/
theorem updateEntry_preserves_outside (s : List Nat) (e : PartEntry)
    (ha : e.attributes < 2 ^ 64) (j : Nat) (hj : j < 48 ∨ (56 ≤ j ∧ j ≤ 63)) :
    (updateEntry s e).attributes.testBit j = e.attributes.testBit j := by
  by_cases h1 : e.type = TYPE_EFI_UNUSED
  · rw [updateEntry_skip_type s e h1]
  by_cases h2 : lastTwo e.name ≠ suffixA ∧ lastTwo e.name ≠ suffixB
  · rw [updateEntry_skip_suffix s e h1 h2]
  by_cases h3 : strBOOT.isPrefixOf e.name = true
  · by_cases h4 : lastTwo e.name = 95 :: s
    · rw [updateEntry_boot_match s e h1 h2 h3 h4]
      exact bootActiveAttr_testBit _ j hj
    · rw [updateEntry_boot_nonmatch s e h1 h2 h3 h4]
      exact bootInactiveAttr_testBit _ j hj
  · by_cases h4 : lastTwo e.name = 95 :: s
    · rw [updateEntry_nonboot_match s e h1 h2 h3 h4]
      exact markActiveAttr_testBit _ j (by omega)
    · rw [updateEntry_nonboot_nonmatch s e h1 h2 h3 h4]
      exact markInactiveAttr_testBit _ j ha (by omega)

theorem updateEntry_idem (s : List Nat) (e : PartEntry) :
    updateEntry s (updateEntry s e) = updateEntry s e := by
  by_cases h1 : e.type = TYPE_EFI_UNUSED
  · rw [updateEntry_skip_type s e h1, updateEntry_skip_type s e h1]
  by_cases h2 : lastTwo e.name ≠ suffixA ∧ lastTwo e.name ≠ suffixB
  · rw [updateEntry_skip_suffix s e h1 h2, updateEntry_skip_suffix s e h1 h2]
  by_cases h3 : strBOOT.isPrefixOf e.name = true
  · by_cases h4 : lastTwo e.name = 95 :: s
    · rw [updateEntry_boot_match s e h1 h2 h3 h4,
        updateEntry_boot_match s { e with attributes := bootActiveAttr e.attributes } h1 h2 h3 h4,
        bootActiveAttr_idem]
    · rw [updateEntry_boot_nonmatch s e h1 h2 h3 h4,
        updateEntry_boot_nonmatch s { e with attributes := bootInactiveAttr e.attributes } h1 h2 h3 h4,
        bootInactiveAttr_idem]
  · by_cases h4 : lastTwo e.name = 95 :: s
    · rw [updateEntry_nonboot_match s e h1 h2 h3 h4,
        updateEntry_nonboot_match s { e with attributes := markActiveAttr e.attributes } h1 h2 h3 h4,
        markActiveAttr_idem]
    · rw [updateEntry_nonboot_nonmatch s e h1 h2 h3 h4,
        updateEntry_nonboot_nonmatch s { e with attributes := markInactiveAttr e.attributes } h1 h2 h3 h4,
        markInactiveAttr_idem]

/-- Inversion of a successful `setActiveSlot`. -/
theorem setActiveSlot_some (g : GPT) (s : List Nat) (g' : GPT)
    (hset : setActiveSlot g s = some g') :
    g' = { g with partEntries := g.partEntries.map (updateEntry s) } := by
  by_cases hc : s ≠ slotA ∧ s ≠ slotB
  · rw [setActiveSlot, if_pos hc] at hset
    exact absurd hset (by simp)
  · rw [setActiveSlot, if_neg hc] at hset
    injection hset with h
    exact h.symm

/-! ## Concrete test fixtures (mirroring the repository's test setup) -/

/-- An in-use partition entry with the given name and attribute word. -/
def mkTestEntry (nm : List Nat) (a : Nat) : PartEntry :=
  { type := List.replicate 16 1, unique := List.replicate 16 0,
    startingLba := 0, endingLba := 0, attributes := a, name := nm }

/-- `"boot_a"` -/
def bootAName : List Nat := [98, 111, 111, 116, 95, 97]
/-- `"boot_b"` -/
def bootBName : List Nat := [98, 111, 111, 116, 95, 98]
/-- `"aop_a"` -/
def aopAName : List Nat := [97, 111, 112, 95, 97]
/-- `"aop_b"` -/
def aopBName : List Nat := [97, 111, 112, 95, 98]

/-- Four entries boot_a, boot_b, aop_a, aop_b with all-zero attributes. -/
def gptZero : GPT :=
  { sectorSize := 4096, header := default,
    partEntries := [mkTestEntry bootAName 0, mkTestEntry bootBName 0,
      mkTestEntry aopAName 0, mkTestEntry aopBName 0] }

/-- The expected result of `setActiveSlot("a")` on `gptZero`. -/
def gptZeroA : GPT :=
  { sectorSize := 4096, header := default,
    partEntries := [mkTestEntry bootAName 0x003f000000000000,
      mkTestEntry bootBName 0x0002000000000000,
      mkTestEntry aopAName 0x0004000000000000, mkTestEntry aopBName 0] }

/-- The bricked-device attribute snapshot used by the repository's tests. -/
def gptLive : GPT :=
  { sectorSize := 4096, header := default,
    partEntries := [mkTestEntry bootAName 0x1187000000000000,
      mkTestEntry bootBName 0x103a000000000000,
      mkTestEntry aopAName 0x213f000000000000,
      mkTestEntry aopBName 0x2039000000000000] }

/-! ## Claims about setActiveSlot -/

/-- Claim C1: for every GPT and slot in a/b, `setActiveSlot` maps every
entry through the per-entry update, which touches exactly the non-empty
slot-suffixed entries: the boot entry of the chosen slot gets
priority=3, active=1, retry count=7, successful=0, unbootable=0 with all
bits outside 48..55 preserved; the other boot entry gets only priority=2
and active=0, with retry, successful and unbootable unchanged; any other
slot-suffixed entry has only its active bit (bit 50) set or cleared.  On
the concrete four-entry zero-attribute table, `setActiveSlot("a")` yields
attributes 0x003f000000000000, 0x0002000000000000, 0x0004000000000000 and
0x0000000000000000. -/
theorem claim_C1 :
    (∀ (g g' : GPT) (slot : List Nat), slot = slotA ∨ slot = slotB →
      setActiveSlot g slot = some g' →
      g'.sectorSize = g.sectorSize ∧ g'.header = g.header ∧
      g'.partEntries = g.partEntries.map (updateEntry slot)) ∧
    (∀ (slot : List Nat) (e : PartEntry), e.attributes < 2 ^ 64 →
      ((e.type = TYPE_EFI_UNUSED ∨ (lastTwo e.name ≠ suffixA ∧ lastTwo e.name ≠ suffixB)) →
        updateEntry slot e = e) ∧
      (¬ e.type = TYPE_EFI_UNUSED → strBOOT.isPrefixOf e.name = true →
        lastTwo e.name = 95 :: slot → slot = slotA ∨ slot = slotB →
        (updateEntry slot e).name = e.name ∧ (updateEntry slot e).type = e.type ∧
        parseABFlags (updateEntry slot e).attributes = ⟨3, true, 7, false, false⟩ ∧
        (∀ i, i < 48 ∨ (56 ≤ i ∧ i ≤ 63) →
          (updateEntry slot e).attributes.testBit i = e.attributes.testBit i)) ∧
      (¬ e.type = TYPE_EFI_UNUSED → strBOOT.isPrefixOf e.name = true →
        lastTwo e.name = suffixA ∨ lastTwo e.name = suffixB →
        ¬ (lastTwo e.name = 95 :: slot) →
        parseABFlags (updateEntry slot e).attributes =
          ⟨2, false, (parseABFlags e.attributes).triesRemaining,
            (parseABFlags e.attributes).successful,
            (parseABFlags e.attributes).unbootable⟩ ∧
        (∀ i, i < 48 ∨ (56 ≤ i ∧ i ≤ 63) →
          (updateEntry slot e).attributes.testBit i = e.attributes.testBit i)) ∧
      (¬ e.type = TYPE_EFI_UNUSED → ¬ (strBOOT.isPrefixOf e.name = true) →
        lastTwo e.name = suffixA ∨ lastTwo e.name = suffixB →
        (parseABFlags (updateEntry slot e).attributes).active =
          decide (lastTwo e.name = 95 :: slot) ∧
        (∀ i, i ≠ 50 →
          (updateEntry slot e).attributes.testBit i = e.attributes.testBit i))) ∧
    setActiveSlot gptZero slotA = some gptZeroA := by
  refine ⟨?_, ?_, by decide⟩
  · intro g g' slot _ hset
    rw [setActiveSlot_some g slot g' hset]
    exact ⟨rfl, rfl, rfl⟩
  · intro slot e ha
    refine ⟨?_, ?_, ?_, ?_⟩
    · rintro (h | h)
      · rw [updateEntry_skip_type slot e h]
      · by_cases ht : e.type = TYPE_EFI_UNUSED
        · rw [updateEntry_skip_type slot e ht]
        · rw [updateEntry_skip_suffix slot e ht h]
    · intro ht hboot hmatch hs
      have hsuf : ¬ (lastTwo e.name ≠ suffixA ∧ lastTwo e.name ≠ suffixB) := by
        rcases hs with rfl | rfl
        · exact fun hc => hc.1 (by rw [hmatch]; rfl)
        · exact fun hc => hc.2 (by rw [hmatch]; rfl)
      rw [updateEntry_boot_match slot e ht hsuf hboot hmatch]
      exact ⟨rfl, rfl, parseABFlags_bootActive _,
        fun i hi => bootActiveAttr_testBit _ i hi⟩
    · intro ht hboot hsuf2 hne
      have hsuf : ¬ (lastTwo e.name ≠ suffixA ∧ lastTwo e.name ≠ suffixB) := by
        rcases hsuf2 with h | h
        exacts [fun hc => hc.1 h, fun hc => hc.2 h]
      rw [updateEntry_boot_nonmatch slot e ht hsuf hboot hne]
      exact ⟨parseABFlags_bootInactive _,
        fun i hi => bootInactiveAttr_testBit _ i hi⟩
    · intro ht hboot hsuf2
      have hsuf : ¬ (lastTwo e.name ≠ suffixA ∧ lastTwo e.name ≠ suffixB) := by
        rcases hsuf2 with h | h
        exacts [fun hc => hc.1 h, fun hc => hc.2 h]
      by_cases hm : lastTwo e.name = 95 :: slot
      · rw [updateEntry_nonboot_match slot e ht hsuf hboot hm]
        refine ⟨?_, fun i hi => markActiveAttr_testBit _ i hi⟩
        rw [parseABFlags_markActive, decide_eq_true hm]
      · rw [updateEntry_nonboot_nonmatch slot e ht hsuf hboot hm]
        refine ⟨?_, fun i hi => markInactiveAttr_testBit _ i ha hi⟩
        rw [parseABFlags_markInactive, decide_eq_false hm]

/-- Witness for C1: the boot_a entry of the concrete scenario indeed
decodes to priority=3, active, retry=7, not successful, not unbootable. -/
theorem claim_C1_witness :
    parseABFlags (updateEntry slotA (mkTestEntry bootAName 0)).attributes =
      ⟨3, true, 7, false, false⟩ :=
  ((claim_C1.2.1 slotA (mkTestEntry bootAName 0) (by decide)).2.1 (by decide)
    (by decide) (by decide) (Or.inl rfl)).2.2.1

/-- Claim C3: every `setActiveSlot` call preserves bits [0:47] and
[56:63] of every entry's 64-bit attribute word; only bits 48..55 may
change. -/
theorem claim_C3 (g : GPT) (s : List Nat) (g' : GPT)
    (hlt : ∀ e ∈ g.partEntries, e.attributes < 2 ^ 64)
    (hset : setActiveSlot g s = some g') :
    g'.partEntries.length = g.partEntries.length ∧
    ∀ i j : Nat, j < 48 ∨ (56 ≤ j ∧ j ≤ 63) →
      (g'.partEntries.get? i).map (fun e => e.attributes.testBit j) =
        (g.partEntries.get? i).map (fun e => e.attributes.testBit j) := by
  have hmap := setActiveSlot_some g s g' hset
  constructor
  · rw [hmap]
    exact List.length_map _ _
  · intro i j hj
    rw [hmap]
    show ((g.partEntries.map (updateEntry s)).get? i).map _ = _
    rw [List.get?_map]
    cases hgi : g.partEntries.get? i with
    | none => rfl
    | some e =>
      have hm : e ∈ g.partEntries := List.get?_mem hgi
      simp only [Option.map_some, Option.map]
      rw [updateEntry_preserves_outside s e (hlt e hm) j hj]

/-- Witness for C3 at the concrete zero-attribute table. -/
theorem claim_C3_witness :
    (gptZeroA.partEntries.get? 0).map (fun e => e.attributes.testBit 0) =
      (gptZero.partEntries.get? 0).map (fun e => e.attributes.testBit 0) :=
  (claim_C3 gptZero slotA gptZeroA (by decide) (by decide)).2 0 0 (Or.inl (by decide))

/-- Claim C4: `setActiveSlot` is idempotent: a second call with the same
slot reproduces exactly the state after the first call, for every entry
and every attribute word, opaque bits included. -/
theorem claim_C4 (g : GPT) (s : List Nat) (g' : GPT)
    (hset : setActiveSlot g s = some g') : setActiveSlot g' s = some g' := by
  have h := setActiveSlot_some g s g' hset
  by_cases hc : s ≠ slotA ∧ s ≠ slotB
  · rw [setActiveSlot, if_pos hc] at hset
    exact absurd hset (by simp)
  · rw [setActiveSlot, if_neg hc, h]
    simp only [List.map_map, Option.some.injEq, GPT.mk.injEq, true_and]
    rw [show (updateEntry s ∘ updateEntry s) = updateEntry s from
      funext fun e => updateEntry_idem s e]

/-- Witness for C4: re-activating slot a on the already-updated concrete
table changes nothing. -/
theorem claim_C4_witness : setActiveSlot gptZeroA slotA = some gptZeroA :=
  claim_C4 gptZero slotA gptZeroA (by decide)

/-- Claim C9: `setActiveSlot` with any slot other than `"a"`/`"b"` fails
before touching any state; no updated GPT is produced. -/
theorem claim_C9 (g : GPT) (s : List Nat) (h1 : s ≠ slotA) (h2 : s ≠ slotB) :
    setActiveSlot g s = none := by
  rw [setActiveSlot, if_pos ⟨h1, h2⟩]

/-- Witness for C9 with the slot name `"c"`. -/
theorem claim_C9_witness : setActiveSlot gptZero [99] = none :=
  claim_C9 gptZero [99] (by decide) (by decide)

/-! ## getActiveSlot against the specified selection rule -/

/-- The A/B priority of an entry. -/
def prio (e : PartEntry) : Nat := (parseABFlags e.attributes).priority

/-- Candidate test of `getActiveSlot`: non-empty, name starting with
`"boot_"` and ending in `"_a"`/`"_b"`, with the active bit set. -/
def isActiveBootSlotEntry (e : PartEntry) : Bool :=
  decide (e.type ≠ TYPE_EFI_UNUSED) && strBOOTU.isPrefixOf e.name &&
    (decide (lastTwo e.name = suffixA) || decide (lastTwo e.name = suffixB)) &&
    (parseABFlags e.attributes).active

/-- The active boot-slot entries in stored order. -/
def abCandidates (l : List PartEntry) : List PartEntry :=
  l.filter isActiveBootSlotEntry

/-- The slot letter of a slot-suffixed entry. -/
def slotLetter (e : PartEntry) : List Nat :=
  if lastTwo e.name = suffixA then slotA else slotB

/-- Fold computing the running maximum priority starting at `b`. -/
def foldIMax (b : Int) (l : List PartEntry) : Int :=
  l.foldl (fun m e => max m (prio e : Int)) b

/-- Greatest priority among the candidates (0 when there are none). -/
def maxPrio (l : List PartEntry) : Nat :=
  l.foldl (fun m e => max m (prio e)) 0

/-- Modelled from the spec: among the non-empty entries whose name begins
with `"boot_"`, ends in `"_a"`/`"_b"` and whose active bit is set, the
first one in stored order whose priority attains the maximum wins; its
slot letter is returned, and `none` when there is no such entry. -/
def specActiveSlot (g : GPT) : Option (List Nat) :=
  ((abCandidates g.partEntries).find? fun e =>
    decide (prio e = maxPrio (abCandidates g.partEntries))).map slotLetter

theorem foldIMax_cons (b : Int) (e : PartEntry) (l : List PartEntry) :
    foldIMax b (e :: l) = foldIMax (max b (prio e : Int)) l := rfl

theorem le_foldIMax_init (b : Int) (l : List PartEntry) : b ≤ foldIMax b l := by
  induction l generalizing b with
  | nil => exact le_refl b
  | cons e t ih => exact le_trans (le_max_left _ _) (ih _)

theorem le_foldIMax_of_mem : ∀ (l : List PartEntry) (b : Int) (x : PartEntry),
    x ∈ l → (prio x : Int) ≤ foldIMax b l
  | [], _, x, hx => absurd hx (List.not_mem_nil x)
  | e :: t, b, x, hx => by
    rcases List.mem_cons.mp hx with rfl | hmem
    · exact le_trans (le_max_right _ _) (le_foldIMax_init _ _)
    · exact le_foldIMax_of_mem t _ x hmem

theorem foldIMax_of_le : ∀ (l : List PartEntry) (b : Int),
    (∀ x ∈ l, (prio x : Int) ≤ b) → foldIMax b l = b
  | [], _, _ => rfl
  | e :: t, b, h => by
    rw [foldIMax_cons, max_eq_left (h e (List.mem_cons_self e t))]
    exact foldIMax_of_le t b fun x hx => h x (List.mem_cons_of_mem e hx)

theorem go_cons_take (e : PartEntry) (rest : List PartEntry)
    (best : Option (List Nat)) (bp : Int)
    (h1 : isActiveBootSlotEntry e = true) (h2 : bp < (prio e : Int)) :
    getActiveSlotGo (e :: rest) best bp =
      getActiveSlotGo rest (some (slotLetter e)) (prio e : Int) := by
  simp only [isActiveBootSlotEntry, Bool.and_eq_true, Bool.or_eq_true,
    decide_eq_true_eq] at h1
  obtain ⟨⟨⟨hty, hpre⟩, hsuf⟩, hact⟩ := h1
  have h3 : ¬ (lastTwo e.name ≠ suffixA ∧ lastTwo e.name ≠ suffixB) := by
    rcases hsuf with h | h
    exacts [fun hc => hc.1 h, fun hc => hc.2 h]
  simp only [getActiveSlotGo]
  rw [if_neg hty, if_neg (fun hcon => hcon hpre), if_neg h3, if_pos ⟨hact, h2⟩]
  rfl

theorem go_cons_skip (e : PartEntry) (rest : List PartEntry)
    (best : Option (List Nat)) (bp : Int)
    (h : isActiveBootSlotEntry e = false ∨ ¬ (bp < (prio e : Int))) :
    getActiveSlotGo (e :: rest) best bp = getActiveSlotGo rest best bp := by
  simp only [getActiveSlotGo]
  by_cases c1 : e.type = TYPE_EFI_UNUSED
  · rw [if_pos c1]
  rw [if_neg c1]
  by_cases c2 : strBOOTU.isPrefixOf e.name = true
  case neg => rw [if_pos c2]
  rw [if_neg (fun hcon => hcon c2)]
  by_cases c3 : lastTwo e.name ≠ suffixA ∧ lastTwo e.name ≠ suffixB
  · rw [if_pos c3]
  rw [if_neg c3]
  have h4 : ¬ ((parseABFlags e.attributes).active = true ∧
      bp < ((parseABFlags e.attributes).priority : Int)) := by
    rintro ⟨hact, hlt⟩
    rcases h with h | h
    · have hsuf : lastTwo e.name = suffixA ∨ lastTwo e.name = suffixB := by
        by_contra hcon
        push_neg at hcon
        exact c3 ⟨hcon.1, hcon.2⟩
      have htrue : isActiveBootSlotEntry e = true := by
        rcases hsuf with hs | hs <;>
          simp [isActiveBootSlotEntry, c1, c2, hact, hs]
      rw [htrue] at h
      cases h
    · exact h hlt
  rw [if_neg h4]

/-- The `getActiveSlot` scan computes the first-seen maximum-priority
candidate above the running threshold, or keeps the accumulator. -/
theorem go_spec : ∀ (l : List PartEntry) (best : Option (List Nat)) (bp : Int),
    getActiveSlotGo l best bp =
      if (abCandidates l).any (fun x => decide (bp < (prio x : Int)))
      then ((abCandidates l).find? fun x =>
        decide ((prio x : Int) = foldIMax bp (abCandidates l))).map slotLetter
      else best := by
  intro l
  induction l with
  | nil =>
    intro best bp
    simp [getActiveSlotGo, abCandidates]
  | cons e rest ih =>
    intro best bp
    by_cases hcand : isActiveBootSlotEntry e = true
    · have hfil : abCandidates (e :: rest) = e :: abCandidates rest := by
        simp [abCandidates, List.filter_cons, hcand]
      by_cases hgt : bp < (prio e : Int)
      · rw [go_cons_take e rest best bp hcand hgt, ih, hfil]
        have hany : ((e :: abCandidates rest).any fun x =>
            decide (bp < (prio x : Int))) = true := by
          simp only [List.any_cons, Bool.or_eq_true, decide_eq_true_eq]
          exact Or.inl hgt
        rw [if_pos hany]
        have hM : foldIMax bp (e :: abCandidates rest) =
            foldIMax (prio e : Int) (abCandidates rest) := by
          rw [foldIMax_cons, max_eq_right (le_of_lt hgt)]
        rw [hM]
        by_cases hrest : ((abCandidates rest).any fun x =>
            decide ((prio e : Int) < (prio x : Int))) = true
        · obtain ⟨x, hxmem, hxgt⟩ := by
            simpa only [List.any_eq_true, decide_eq_true_eq] using hrest
          have hMgt : (prio e : Int) < foldIMax (prio e : Int) (abCandidates rest) :=
            lt_of_lt_of_le hxgt (le_foldIMax_of_mem _ _ x hxmem)
          rw [if_pos hrest,
            List.find?_cons_of_neg _ (by simpa using ne_of_lt hMgt)]
        · have hle : ∀ x ∈ abCandidates rest, (prio x : Int) ≤ (prio e : Int) := by
            intro x hx
            by_contra hcon
            exact hrest (List.any_eq_true.mpr
              ⟨x, hx, by simpa using lt_of_not_le hcon⟩)
          rw [foldIMax_of_le _ _ hle,
            List.find?_cons_of_pos _ (by simp), if_neg hrest]
          rfl
      · rw [go_cons_skip e rest best bp (Or.inr hgt), ih, hfil]
        have hM : foldIMax bp (e :: abCandidates rest) =
            foldIMax bp (abCandidates rest) := by
          rw [foldIMax_cons, max_eq_left (le_of_not_lt hgt)]
        have hany : ((e :: abCandidates rest).any fun x =>
            decide (bp < (prio x : Int))) =
            ((abCandidates rest).any fun x => decide (bp < (prio x : Int))) := by
          simp [List.any_cons, hgt]
        rw [hM, hany]
        by_cases hrest : ((abCandidates rest).any fun x =>
            decide (bp < (prio x : Int))) = true
        · obtain ⟨x, hxmem, hxgt⟩ := by
            simpa only [List.any_eq_true, decide_eq_true_eq] using hrest
          have hMgt : bp < foldIMax bp (abCandidates rest) :=
            lt_of_lt_of_le hxgt (le_foldIMax_of_mem _ _ x hxmem)
          have hne : (prio e : Int) ≠ foldIMax bp (abCandidates rest) :=
            ne_of_lt (lt_of_le_of_lt (le_of_not_lt hgt) hMgt)
          rw [if_pos hrest, if_pos hrest,
            List.find?_cons_of_neg _ (by simpa using hne)]
        · rw [if_neg hrest, if_neg hrest]
    · have hfil : abCandidates (e :: rest) = abCandidates rest := by
        simp [abCandidates, List.filter_cons, hcand]
      have hfalse : isActiveBootSlotEntry e = false := by
        cases h : isActiveBootSlotEntry e
        · rfl
        · exact absurd h hcand
      rw [go_cons_skip e rest best bp (Or.inl hfalse), ih, hfil]

theorem foldIMax_cast : ∀ (l : List PartEntry) (b : Nat),
    foldIMax (b : Int) l = ((l.foldl (fun m e => max m (prio e)) b : Nat) : Int)
  | [], _ => rfl
  | e :: t, b => by
    rw [foldIMax_cons,
      show (max (b : Int) ((prio e : Nat) : Int)) = ((max b (prio e) : Nat) : Int) from
        (Nat.cast_max b (prio e)).symm]
    exact foldIMax_cast t (max b (prio e))

theorem foldMax_attained : ∀ (l : List PartEntry) (b : Nat),
    l.foldl (fun m x => max m (prio x)) b = b ∨
      ∃ x ∈ l, l.foldl (fun m x => max m (prio x)) b = prio x
  | [], _ => Or.inl rfl
  | e :: t, b => by
    rcases foldMax_attained t (max b (prio e)) with h | ⟨x, hx, hfx⟩
    · rcases Nat.le_total b (prio e) with hbe | hbe
      · right
        refine ⟨e, List.mem_cons_self _ _, ?_⟩
        show t.foldl (fun m x => max m (prio x)) (max b (prio e)) = prio e
        rw [h, max_eq_right hbe]
      · left
        show t.foldl (fun m x => max m (prio x)) (max b (prio e)) = b
        rw [h, max_eq_left hbe]
    · exact Or.inr ⟨x, List.mem_cons_of_mem e hx, hfx⟩

/-- The code's `getActiveSlot` equals the specified selection rule. -/
theorem getActiveSlot_eq_spec (g : GPT) : getActiveSlot g = specActiveSlot g := by
  rw [getActiveSlot, go_spec, specActiveSlot]
  cases hc : abCandidates g.partEntries with
  | nil => simp
  | cons e c =>
    have hpos : (-1 : Int) < (prio e : Int) := by
      have := Int.natCast_nonneg (prio e)
      omega
    have hany : ((e :: c).any fun x => decide ((-1 : Int) < (prio x : Int))) = true := by
      simp only [List.any_cons, Bool.or_eq_true, decide_eq_true_eq]
      exact Or.inl hpos
    rw [if_pos hany]
    have hMeq : foldIMax (-1) (e :: c) = ((maxPrio (e :: c) : Nat) : Int) := by
      rw [foldIMax_cons, max_eq_right (le_of_lt hpos), foldIMax_cast c (prio e)]
      congr 1
      show c.foldl (fun m x => max m (prio x)) (prio e) = maxPrio (e :: c)
      show c.foldl (fun m x => max m (prio x)) (prio e) =
        c.foldl (fun m x => max m (prio x)) (max 0 (prio e))
      rw [Nat.zero_max]
    have hpred : (fun x => decide ((prio x : Int) = foldIMax (-1) (e :: c))) =
        (fun x => decide (prio x = maxPrio (e :: c))) := by
      funext x
      rw [hMeq]
      exact decide_eq_decide.mpr Nat.cast_inj
    rw [hpred]

theorem le_foldNMax_init : ∀ (l : List PartEntry) (b : Nat),
    b ≤ l.foldl (fun m x => max m (prio x)) b
  | [], _ => le_refl _
  | e :: t, b => le_trans (le_max_left _ _) (le_foldNMax_init t _)

theorem maxPrio_attained (e : PartEntry) (c : List PartEntry) :
    ∃ x ∈ e :: c, prio x = maxPrio (e :: c) := by
  rcases foldMax_attained (e :: c) 0 with h | ⟨x, hx, hfx⟩
  · refine ⟨e, List.mem_cons_self _ _, ?_⟩
    have h1 : prio e ≤ maxPrio (e :: c) :=
      le_trans (le_max_right 0 (prio e)) (le_foldNMax_init c (max 0 (prio e)))
    have h2 : maxPrio (e :: c) = 0 := h
    omega
  · exact ⟨x, hx, hfx.symm⟩

/-- When there is at least one candidate, a maximum is attained, so the
selection cannot come back empty: the scan answers `none` exactly when no
non-empty boot-slot entry has the active bit set. -/
theorem getActiveSlot_none_iff (g : GPT) :
    getActiveSlot g = none ↔ abCandidates g.partEntries = [] := by
  rw [getActiveSlot_eq_spec, specActiveSlot]
  cases hc : abCandidates g.partEntries with
  | nil => simp
  | cons e c =>
    obtain ⟨x, hxmem, hxeq⟩ := maxPrio_attained e c
    constructor
    · intro hnone
      exfalso
      have hfind : (e :: c).find?
          (fun y => decide (prio y = maxPrio (e :: c))) = none :=
        Option.map_eq_none.mp hnone
      rw [List.find?_eq_none] at hfind
      exact hfind x hxmem (decide_eq_true hxeq)
    · intro hcon
      exact absurd hcon (List.cons_ne_nil e c)

/-- Claim C2: `getActiveSlot` considers only non-empty entries whose name
begins with `"boot_"` and ends with `"_a"`/`"_b"`; among those with the
active bit set it returns the slot letter of the first-seen entry whose
priority attains the maximum (the unbootable bit is never consulted), and
`none` exactly when no such entry has the active bit set.  On the bricked
device snapshot (boot_a=0x1187000000000000, boot_b=0x103a000000000000,
aop_a=0x213f000000000000, aop_b=0x2039000000000000) it returns `"a"`. -/
theorem claim_C2 :
    (∀ g : GPT, getActiveSlot g = specActiveSlot g) ∧
    (∀ g : GPT, getActiveSlot g = none ↔ abCandidates g.partEntries = []) ∧
    getActiveSlot gptLive = some slotA :=
  ⟨getActiveSlot_eq_spec, getActiveSlot_none_iff, by decide⟩

/-! ## Byte-level layer

The declarative struct engine (`tiny-struct`) and the GUID/UTF-16 field
codecs are outside the GPT module; the definitions below model them from
the specified field layout: fixed-width little-endian integers at
cumulative offsets, fixed-width byte runs, and the mixed-endian GUID
byte order. -/

/-- Little-endian read of `len` bytes at offset `off`. -/
def readLE (data : List Nat) (off len : Nat) : Nat :=
  ((data.drop off).take len).foldr (fun b acc => b + 256 * acc) 0

/-- Little-endian bytes of a 16-bit value. -/
def u16le (n : Nat) : List Nat := [n % 256, n / 256 % 256]

/-- Little-endian bytes of a 32-bit value (wrapping like a DataView). -/
def u32le (n : Nat) : List Nat :=
  [n % 256, n / 256 % 256, n / 65536 % 256, n / 16777216 % 256]

/-- Little-endian bytes of a 64-bit value (wrapping like a DataView). -/
def u64le (n : Nat) : List Nat :=
  [n % 256, n / 256 % 256, n / 65536 % 256, n / 16777216 % 256,
    n / 4294967296 % 256, n / 1099511627776 % 256,
    n / 281474976710656 % 256, n / 72057594037927936 % 256]

/-- Fixed-width byte run: truncate or zero-pad to exactly `n` bytes. -/
def bytesFixed (n : Nat) (l : List Nat) : List Nat :=
  l.take n ++ List.replicate (n - l.length) 0

/-- Modelled from the spec: the UEFI/Microsoft mixed-endian GUID byte
order — the three little-endian groups (4+2+2 bytes) reversed, the final
8 bytes kept.  The canonical hexadecimal rendering is injective, so GUID
string equality is equality of these reordered bytes; the reorder is an
involution, hence serves as both decode and encode. -/
def guidPerm (bs : List Nat) : List Nat :=
  (bs.take 4).reverse ++ ((bs.drop 4).take 2).reverse ++
    ((bs.drop 6).take 2).reverse ++ bs.drop 8

/-- Modelled from the spec: the 36 UTF-16 code units of a name field. -/
def utf16units (data : List Nat) : List Nat :=
  (List.range 36).map fun i => readLE data (2 * i) 2

/-- Modelled from the spec: decode of the fixed-width 36-unit
NUL-terminated UTF-16 name. -/
def utf16cstringDecode (data : List Nat) : List Nat :=
  (utf16units data).takeWhile fun u => u ≠ 0

/-- Modelled from the spec: encode of the name back into 36 UTF-16 code
units (NUL padded), 72 bytes little-endian. -/
def utf16cstringEncode (name : List Nat) : List Nat :=
  ((name.take 36 ++ List.replicate (36 - name.length) 0).map u16le).flatten

/-! ## CRC-32

Modelled from the spec: the standard IEEE 802.3 reflected-polynomial
32-bit cyclic redundancy check, bit by bit.  The result is the unsigned
32-bit pattern; the JavaScript library reports the same bits signed. -/

def crc32Step (c : Nat) : Nat :=
  if c % 2 = 1 then (c / 2) ^^^ 0xEDB88320 else c / 2

def crc32Bits : Nat → Nat → Nat
  | 0, c => c
  | n + 1, c => crc32Bits n (crc32Step c)

def crc32 (data : List Nat) : Nat :=
  (data.foldl (fun c b => crc32Bits 8 (c ^^^ b % 256)) 0xFFFFFFFF) ^^^ 0xFFFFFFFF

/-! ## Header and entry codecs -/

/-- `"EFI PART"` as bytes. -/
def SIGNATURE : List Nat := [69, 70, 73, 32, 80, 65, 82, 84]

/-- Decode of the 92-byte header; `none` models the truncated-buffer
failure of the struct engine. -/
def decodeHeader (data : List Nat) : Option GPTHeader :=
  if data.length < 92 then none else some
    { signature := data.take 8
      revision := readLE data 8 4
      headerSize := readLE data 12 4
      headerCrc32 := readLE data 16 4
      reserved := readLE data 20 4
      currentLba := readLE data 24 8
      alternateLba := readLE data 32 8
      firstUsableLba := readLE data 40 8
      lastUsableLba := readLE data 48 8
      diskGuid := (data.drop 56).take 16
      partEntriesStartLba := readLE data 72 8
      numPartEntries := readLE data 80 4
      partEntrySize := readLE data 84 4
      partEntriesCrc32 := readLE data 88 4 }

/-- Encode of the header back into its 92 bytes. -/
def encodeHeader (h : GPTHeader) : List Nat :=
  bytesFixed 8 h.signature ++ u32le h.revision ++ u32le h.headerSize ++
    u32le h.headerCrc32 ++ u32le h.reserved ++ u64le h.currentLba ++
    u64le h.alternateLba ++ u64le h.firstUsableLba ++ u64le h.lastUsableLba ++
    bytesFixed 16 h.diskGuid ++ u64le h.partEntriesStartLba ++
    u32le h.numPartEntries ++ u32le h.partEntrySize ++ u32le h.partEntriesCrc32

/-- Decode of one 128-byte partition entry; `none` models the
truncated-buffer failure. -/
def decodePartEntry (data : List Nat) : Option PartEntry :=
  if data.length < 128 then none else some
    { type := guidPerm (data.take 16)
      unique := guidPerm ((data.drop 16).take 16)
      startingLba := readLE data 32 8
      endingLba := readLE data 40 8
      attributes := readLE data 48 8
      name := utf16cstringDecode ((data.drop 56).take 72) }

/-- Encode of one partition entry back into 128 bytes. -/
def encodePartEntry (e : PartEntry) : List Nat :=
  bytesFixed 16 (guidPerm e.type) ++ bytesFixed 16 (guidPerm e.unique) ++
    u64le e.startingLba ++ u64le e.endingLba ++ u64le e.attributes ++
    utf16cstringEncode e.name

/-! ## GPT operations on byte buffers -/

/-- `GPT.parseHeader(data, actualLba)`: decode, check signature, revision
and header size; a current-LBA drift is only logged; the checksum is
recomputed with the stored field transiently zeroed and the stored value
restored.  Returns the decoded header together with the stored checksum
and the mismatch flag; `none` models the error returns. -/
def parseHeader (sectorSize : Nat) (data : List Nat) (actualLba : Nat) :
    Option (GPTHeader × Nat × Bool) :=
  match decodeHeader data with
  | none => none
  | some h =>
    if h.signature ≠ SIGNATURE then none
    else if h.revision ≠ 0x10000 then none
    else if h.headerSize < 92 ∨ sectorSize < h.headerSize then none
    else
      some (h, h.headerCrc32,
        decide (h.headerCrc32 ≠ crc32 (encodeHeader { h with headerCrc32 := 0 })))

/-- The `entryCount` entries decoded from consecutive `entrySize`-byte
slices starting at offset 0. -/
def decodedEntries (h : GPTHeader) (data : List Nat) : Option (List PartEntry) :=
  (List.range h.numPartEntries).mapM fun i =>
    decodePartEntry ((data.drop (i * h.partEntrySize)).take h.partEntrySize)

/-- Writing `src` into `arr` at offset `off` (`Uint8Array.set` within
bounds; the in-range uses below are guarded by `128 ≤ partEntrySize`). -/
def setRange (arr : List Nat) (off : Nat) (src : List Nat) : List Nat :=
  arr.take off ++ src ++ arr.drop (off + src.length)

/-- `GPT.buildPartEntries()`: encode the first `numPartEntries` entries
into a fresh `numPartEntries * partEntrySize` byte array. -/
def buildPartEntries (g : GPT) : List Nat :=
  (List.range g.header.numPartEntries).foldl
    (fun arr i =>
      setRange arr (i * g.header.partEntrySize)
        (encodePartEntry (g.partEntries.getD i default)))
    (List.replicate (g.header.numPartEntries * g.header.partEntrySize) 0)

/-- `GPT.parsePartEntries(data)`: append the decoded entries, then
validate the entries checksum over the re-encoded canonical array. -/
def parsePartEntries (g : GPT) (data : List Nat) : Option (GPT × Nat × Bool) :=
  match decodedEntries g.header data with
  | none => none
  | some es =>
    let gAfter := { g with partEntries := g.partEntries ++ es }
    some (gAfter, g.header.partEntriesCrc32,
      decide (g.header.partEntriesCrc32 ≠ crc32 (buildPartEntries gAfter)))

/-- `GPT.buildHeader(partEntries?)`: store the entries checksum, then the
header checksum computed with the checksum field zeroed; `none` models the
zero-checksum throws.  Returns the encoded bytes and the final header. -/
def buildHeader (g : GPT) (partEntriesArg : Option (List Nat)) :
    Option (List Nat × GPTHeader) :=
  let entriesBytes := partEntriesArg.getD (buildPartEntries g)
  let pec := crc32 entriesBytes
  if pec = 0 then none
  else
    let h1 : GPTHeader := { g.header with partEntriesCrc32 := pec }
    let hc := crc32 (encodeHeader { h1 with headerCrc32 := 0 })
    if hc = 0 then none
    else some (encodeHeader { h1 with headerCrc32 := hc }, { h1 with headerCrc32 := hc })

/-- `GPT.partEntriesSectors`: the entry array's size in sectors, rounded
up. -/
def partEntriesSectors (g : GPT) : Nat :=
  (g.header.numPartEntries * g.header.partEntrySize + g.sectorSize - 1) / g.sectorSize

/-- `GPT.asAlternate()`: the backup table with current and alternate LBA
swapped and the entry array placed immediately below the backup header. -/
def asAlternate (g : GPT) : GPT :=
  { sectorSize := g.sectorSize
    header := { g.header with
      currentLba := g.header.alternateLba
      alternateLba := g.header.currentLba
      partEntriesStartLba := g.header.alternateLba - partEntriesSectors g }
    partEntries := g.partEntries }

/-! ## Length facts for the codecs -/

theorem bytesFixed_length (n : Nat) (l : List Nat) : (bytesFixed n l).length = n := by
  simp [bytesFixed]
  omega

theorem u32le_length (n : Nat) : (u32le n).length = 4 := rfl

theorem u64le_length (n : Nat) : (u64le n).length = 8 := rfl

theorem flat_u16_length : ∀ l : List Nat, ((l.map u16le).flatten).length = 2 * l.length
  | [] => rfl
  | x :: t => by
    simp only [List.map_cons, List.flatten_cons, List.length_append, flat_u16_length t,
      List.length_cons, u16le]
    simp [List.length_cons]
    omega

theorem utf16cstringEncode_length (nm : List Nat) :
    (utf16cstringEncode nm).length = 72 := by
  rw [utf16cstringEncode, flat_u16_length]
  simp [List.length_append, List.length_take, List.length_replicate]
  omega

theorem encodePartEntry_length (e : PartEntry) : (encodePartEntry e).length = 128 := by
  simp [encodePartEntry, bytesFixed_length, u64le_length, utf16cstringEncode_length,
    List.length_append]

theorem encodeHeader_length (h : GPTHeader) : (encodeHeader h).length = 92 := by
  simp [encodeHeader, bytesFixed_length, u64le_length, u32le_length, List.length_append]

/-! ## Claim C8: asAlternate -/

/-- Claim C8: `asAlternate` swaps current and alternate LBA, places the
entry array `ceil(entryCount * entrySize / sectorSize)` sectors below the
alternate LBA, carries the entries over unchanged, and does not touch any
checksum or other header field. -/
theorem claim_C8 (g : GPT) (hss : 0 < g.sectorSize)
    (hle : partEntriesSectors g ≤ g.header.alternateLba) :
    (asAlternate g).header.currentLba = g.header.alternateLba ∧
    (asAlternate g).header.alternateLba = g.header.currentLba ∧
    (asAlternate g).header.partEntriesStartLba + partEntriesSectors g =
      g.header.alternateLba ∧
    g.header.numPartEntries * g.header.partEntrySize ≤
      partEntriesSectors g * g.sectorSize ∧
    partEntriesSectors g * g.sectorSize <
      g.header.numPartEntries * g.header.partEntrySize + g.sectorSize ∧
    (asAlternate g).partEntries = g.partEntries ∧
    (asAlternate g).header.headerCrc32 = g.header.headerCrc32 ∧
    (asAlternate g).header.partEntriesCrc32 = g.header.partEntriesCrc32 ∧
    (asAlternate g).sectorSize = g.sectorSize ∧
    (asAlternate g).header.signature = g.header.signature ∧
    (asAlternate g).header.revision = g.header.revision ∧
    (asAlternate g).header.headerSize = g.header.headerSize ∧
    (asAlternate g).header.firstUsableLba = g.header.firstUsableLba ∧
    (asAlternate g).header.lastUsableLba = g.header.lastUsableLba ∧
    (asAlternate g).header.diskGuid = g.header.diskGuid ∧
    (asAlternate g).header.numPartEntries = g.header.numPartEntries ∧
    (asAlternate g).header.partEntrySize = g.header.partEntrySize := by
  have hx := Nat.div_add_mod
    (g.header.numPartEntries * g.header.partEntrySize + g.sectorSize - 1) g.sectorSize
  have hr := Nat.mod_lt
    (g.header.numPartEntries * g.header.partEntrySize + g.sectorSize - 1) hss
  have hcomm : partEntriesSectors g * g.sectorSize =
      g.sectorSize * ((g.header.numPartEntries * g.header.partEntrySize +
        g.sectorSize - 1) / g.sectorSize) := Nat.mul_comm _ _
  refine ⟨rfl, rfl, ?_, ?_, ?_, rfl, rfl, rfl, rfl, rfl, rfl, rfl, rfl, rfl, rfl, rfl, rfl⟩
  · show g.header.alternateLba - partEntriesSectors g + partEntriesSectors g =
      g.header.alternateLba
    omega
  · rw [hcomm]
    omega
  · rw [hcomm]
    omega

/-- Witness for C8 at a concrete GPT. -/
theorem claim_C8_witness :
    (asAlternate gptZero).header.currentLba = gptZero.header.alternateLba :=
  (claim_C8 gptZero (by decide) (by decide)).1

/-! ## Claims C10 and C7: parsePartEntries -/

theorem mapM_length_option {α β : Type} (f : α → Option β) (l : List α) :
    ∀ ys : List β, l.mapM f = some ys → ys.length = l.length := by
  induction l with
  | nil =>
    intro ys h
    simp only [List.mapM_nil] at h
    cases h
    rfl
  | cons a t ih =>
    intro ys h
    rw [List.mapM_cons] at h
    cases hfa : f a with
    | none =>
      rw [hfa] at h
      simp at h
    | some b =>
      rw [hfa] at h
      cases hmt : t.mapM f with
      | none =>
        rw [hmt] at h
        simp at h
      | some bs =>
        rw [hmt] at h
        simp at h
        subst h
        simp [ih bs hmt]

theorem decodedEntries_length (h : GPTHeader) (data : List Nat)
    (es : List PartEntry) (hd : decodedEntries h data = some es) :
    es.length = h.numPartEntries := by
  rw [decodedEntries] at hd
  rw [mapM_length_option _ _ es hd, List.length_range]

/-- Inversion of a successful `parsePartEntries`. -/
theorem parsePartEntries_some (g : GPT) (data : List Nat) (g2 : GPT)
    (r : Nat) (m : Bool) (h : parsePartEntries g data = some (g2, r, m)) :
    ∃ es, decodedEntries g.header data = some es ∧
      g2 = { g with partEntries := g.partEntries ++ es } ∧
      r = g.header.partEntriesCrc32 ∧
      m = decide (g.header.partEntriesCrc32 ≠ crc32 (buildPartEntries g2)) := by
  cases hd : decodedEntries g.header data with
  | none =>
    rw [parsePartEntries] at h
    rw [hd] at h
    cases h
  | some es =>
    rw [parsePartEntries] at h
    rw [hd] at h
    simp only [Option.some.injEq, Prod.mk.injEq] at h
    obtain ⟨hg, hr, hm⟩ := h
    exact ⟨es, rfl, hg.symm, hr.symm, by rw [← hm, hg]⟩

/-- Claim C10: a second `parsePartEntries` appends its decoded entries
after the first call's entries instead of replacing them. -/
theorem claim_C10 (g : GPT) (d1 d2 : List Nat) (g1 g2 : GPT) (r1 r2 : Nat)
    (m1 m2 : Bool)
    (h1 : parsePartEntries g d1 = some (g1, r1, m1))
    (h2 : parsePartEntries g1 d2 = some (g2, r2, m2)) :
    ∃ e1 e2 : List PartEntry,
      decodedEntries g.header d1 = some e1 ∧
      decodedEntries g.header d2 = some e2 ∧
      e1.length = g.header.numPartEntries ∧
      e2.length = g.header.numPartEntries ∧
      g1.partEntries = g.partEntries ++ e1 ∧
      g2.partEntries = g.partEntries ++ e1 ++ e2 := by
  obtain ⟨e1, hd1, hg1, _, _⟩ := parsePartEntries_some g d1 g1 r1 m1 h1
  obtain ⟨e2, hd2, hg2, _, _⟩ := parsePartEntries_some g1 d2 g2 r2 m2 h2
  have hh : g1.header = g.header := by rw [hg1]
  have hl2 : e2.length = g.header.numPartEntries := by
    have := decodedEntries_length g1.header d2 e2 hd2
    rwa [hh] at this
  refine ⟨e1, e2, hd1, ?_, decodedEntries_length _ _ _ hd1, hl2, by rw [hg1], ?_⟩
  · rw [← hh]
    exact hd2
  · rw [hg2, hg1]

/-- Witness for C10 on a zero-entry table parsed twice. -/
theorem claim_C10_witness :
    ∃ e1 e2 : List PartEntry,
      decodedEntries gptZero.header [] = some e1 ∧
      decodedEntries gptZero.header [] = some e2 ∧
      e1.length = gptZero.header.numPartEntries ∧
      e2.length = gptZero.header.numPartEntries ∧
      gptZero.partEntries = gptZero.partEntries ++ e1 ∧
      gptZero.partEntries = gptZero.partEntries ++ e1 ++ e2 :=
  claim_C10 gptZero [] [] gptZero gptZero 0 0 false false (by decide) (by decide)

theorem setRange_length (arr : List Nat) (off : Nat) (src : List Nat)
    (h : off + src.length ≤ arr.length) :
    (setRange arr off src).length = arr.length := by
  simp [setRange, List.length_append, List.length_take, List.length_drop]
  omega

theorem buildPartEntries_aux_length (g : GPT)
    (h128 : 128 ≤ g.header.partEntrySize) :
    ∀ (k : Nat) (arr : List Nat), k ≤ g.header.numPartEntries →
      arr.length = g.header.numPartEntries * g.header.partEntrySize →
      ((List.range k).foldl
        (fun a i => setRange a (i * g.header.partEntrySize)
          (encodePartEntry (g.partEntries.getD i default))) arr).length =
        g.header.numPartEntries * g.header.partEntrySize
  | 0, arr, _, harr => by simpa using harr
  | k + 1, arr, hk, harr => by
    rw [List.range_succ, List.foldl_append, List.foldl_cons, List.foldl_nil]
    have harr2 := buildPartEntries_aux_length g h128 k arr (by omega) harr
    rw [setRange_length _ _ _ ?_, harr2]
    rw [harr2, encodePartEntry_length]
    have hmul : (k + 1) * g.header.partEntrySize ≤
        g.header.numPartEntries * g.header.partEntrySize :=
      Nat.mul_le_mul_right _ hk
    have hsucc : (k + 1) * g.header.partEntrySize =
        k * g.header.partEntrySize + g.header.partEntrySize := by ring
    omega

/-- The canonical entry array has exactly
`numPartEntries * partEntrySize` bytes. -/
theorem buildPartEntries_length (g : GPT) (h128 : 128 ≤ g.header.partEntrySize) :
    (buildPartEntries g).length =
      g.header.numPartEntries * g.header.partEntrySize := by
  rw [buildPartEntries]
  exact buildPartEntries_aux_length g h128 g.header.numPartEntries _ (le_refl _)
    (by simp)

/-- Claim C7: `parsePartEntries` decodes `entryCount` slices of
`entrySize` bytes from offset 0 and validates the checksum over the
re-encoded canonical `numPartEntries * partEntrySize` array, never over
the raw input: inputs with equal decodes get the same verdict. -/
theorem claim_C7 (g : GPT) (d1 d2 : List Nat)
    (heq : decodedEntries g.header d1 = decodedEntries g.header d2) :
    parsePartEntries g d1 = parsePartEntries g d2 ∧
    (∀ g2 r m, parsePartEntries g d1 = some (g2, r, m) →
      ∃ es, decodedEntries g.header d1 = some es ∧
        es.length = g.header.numPartEntries ∧
        g2.partEntries = g.partEntries ++ es ∧
        r = g.header.partEntriesCrc32 ∧
        (m = true ↔
          g.header.partEntriesCrc32 ≠ crc32 (buildPartEntries g2))) ∧
    (∀ gg : GPT, 128 ≤ gg.header.partEntrySize →
      (buildPartEntries gg).length =
        gg.header.numPartEntries * gg.header.partEntrySize) := by
  refine ⟨?_, ?_, fun gg h128 => buildPartEntries_length gg h128⟩
  · rw [parsePartEntries, parsePartEntries, heq]
  · intro g2 r m h
    obtain ⟨es, hd, hg2, hr, hm⟩ := parsePartEntries_some g d1 g2 r m h
    exact ⟨es, hd, decodedEntries_length _ _ _ hd, by rw [hg2], hr,
      by rw [hm, decide_eq_true_eq]⟩

/-- One in-use entry with the standard 128-byte entry size. -/
def gpt128 : GPT :=
  { sectorSize := 4096,
    header := { (default : GPTHeader) with numPartEntries := 1, partEntrySize := 128 },
    partEntries := [mkTestEntry bootAName 0] }

/-- Witness for C7: equal-decode inputs give equal results, and the
canonical array of the one-entry table has 1 * 128 bytes. -/
theorem claim_C7_witness :
    parsePartEntries gptZero [] = parsePartEntries gptZero [] ∧
    (buildPartEntries gpt128).length =
      gpt128.header.numPartEntries * gpt128.header.partEntrySize :=
  ⟨(claim_C7 gptZero [] [] (by decide)).1,
    (claim_C7 gptZero [] [] (by decide)).2.2 gpt128 (by decide)⟩

/-! ## Claim C5: parseHeader -/

theorem decodeHeader_crcField (data : List Nat) (h0 : GPTHeader)
    (hdec : decodeHeader data = some h0) : h0.headerCrc32 = readLE data 16 4 := by
  rw [decodeHeader] at hdec
  by_cases hlen : data.length < 92
  · rw [if_pos hlen] at hdec
    cases hdec
  · rw [if_neg hlen] at hdec
    injection hdec with hh
    rw [← hh]

theorem parseHeader_eq (ss : Nat) (data : List Nat) (lba : Nat) (h0 : GPTHeader)
    (hdec : decodeHeader data = some h0) :
    parseHeader ss data lba =
      (if h0.signature ≠ SIGNATURE then none
       else if h0.revision ≠ 0x10000 then none
       else if h0.headerSize < 92 ∨ ss < h0.headerSize then none
       else some (h0, h0.headerCrc32,
         decide (h0.headerCrc32 ≠
           crc32 (encodeHeader { h0 with headerCrc32 := 0 })))) := by
  unfold parseHeader
  rw [hdec]

/-- Claim C5: `parseHeader` fails exactly on a bad signature, revision or
header size; a checksum mismatch or a current-LBA drift never causes
failure (the result does not even depend on the expected LBA), and the
decoded view's stored checksum field always equals the input's stored
bytes (the field is only transiently zeroed while recomputing). -/
theorem claim_C5 (ss : Nat) (data : List Nat) (lba : Nat) (h0 : GPTHeader)
    (hdec : decodeHeader data = some h0) :
    (parseHeader ss data lba = none ↔
      (h0.signature ≠ SIGNATURE ∨ h0.revision ≠ 0x10000 ∨
        h0.headerSize < 92 ∨ ss < h0.headerSize)) ∧
    (∀ h r m, parseHeader ss data lba = some (h, r, m) →
      h = h0 ∧ h.headerCrc32 = readLE data 16 4 ∧ r = h0.headerCrc32 ∧
      (m = true ↔ h0.headerCrc32 ≠
        crc32 (encodeHeader { h0 with headerCrc32 := 0 }))) ∧
    (∀ lba2, parseHeader ss data lba2 = parseHeader ss data lba) := by
  refine ⟨?_, ?_, ?_⟩
  · rw [parseHeader_eq ss data lba h0 hdec]
    split_ifs with hs hr hh
    · simp [hs]
    · simp [hr]
    · simp [hh]
    · simp only [not_or] at hh
      simp [hs, hr, hh.1, hh.2]
  · intro h r m hsome
    rw [parseHeader_eq ss data lba h0 hdec] at hsome
    split_ifs at hsome with hs hr hh
    injection hsome with hp
    injection hp with hfst hsnd
    injection hsnd with hr2 hm2
    refine ⟨hfst.symm, ?_, hr2.symm, by rw [← hm2, decide_eq_true_eq]⟩
    rw [hfst.symm]
    exact decodeHeader_crcField data h0 hdec
  · intro lba2
    rw [parseHeader_eq ss data lba2 h0 hdec, parseHeader_eq ss data lba h0 hdec]

/-- The header decoded from ninety-two zero bytes. -/
def hdr0 : GPTHeader :=
  { signature := List.replicate 8 0
    revision := 0
    headerSize := 0
    headerCrc32 := 0
    reserved := 0
    currentLba := 0
    alternateLba := 0
    firstUsableLba := 0
    lastUsableLba := 0
    diskGuid := List.replicate 16 0
    partEntriesStartLba := 0
    numPartEntries := 0
    partEntrySize := 0
    partEntriesCrc32 := 0 }

/-- Witness for C5: a zeroed buffer decodes but is rejected, exactly
because its signature (and revision and size) are invalid. -/
theorem claim_C5_witness :
    parseHeader 4096 (List.replicate 92 0) 1 = none ↔
      (hdr0.signature ≠ SIGNATURE ∨ hdr0.revision ≠ 0x10000 ∨
        hdr0.headerSize < 92 ∨ 4096 < hdr0.headerSize) :=
  (claim_C5 4096 (List.replicate 92 0) 1 hdr0 (by decide)).1

/-! ## Claim C6: buildHeader -/

/-- The header bytes with the checksum field (offset 16, 4 bytes)
zeroed. -/
def zeroCrcField (bs : List Nat) : List Nat :=
  bs.take 16 ++ [0, 0, 0, 0] ++ bs.drop 20

theorem zeroCrcField_encodeHeader (h : GPTHeader) :
    zeroCrcField (encodeHeader h) = encodeHeader { h with headerCrc32 := 0 } := by
  have h0 : u32le 0 = [0, 0, 0, 0] := rfl
  simp [zeroCrcField, encodeHeader, h0,
    List.take_append_eq_append_take, List.drop_append_eq_append_drop,
    bytesFixed_length, u32le_length, u64le_length,
    List.take_of_length_le, List.drop_eq_nil_of_le]

/-- Claim C6: `buildHeader` stores the entries checksum, then the header
checksum computed with the checksum field zeroed; it fails exactly when
either computed checksum is zero, and recomputing the checksum over the
returned bytes with the field zeroed reproduces the stored value. -/
theorem claim_C6 (g : GPT) (pe : Option (List Nat))
    (h128 : 128 ≤ g.header.partEntrySize)
    (hnum : g.header.numPartEntries ≤ g.partEntries.length) :
    (buildHeader g pe = none ↔
      (crc32 (pe.getD (buildPartEntries g)) = 0 ∨
        crc32 (encodeHeader { g.header with
          partEntriesCrc32 := crc32 (pe.getD (buildPartEntries g)),
          headerCrc32 := 0 }) = 0)) ∧
    (∀ bs h2, buildHeader g pe = some (bs, h2) →
      h2.partEntriesCrc32 = crc32 (pe.getD (buildPartEntries g)) ∧
      h2.headerCrc32 = crc32 (encodeHeader { h2 with headerCrc32 := 0 }) ∧
      bs = encodeHeader h2 ∧
      crc32 (zeroCrcField bs) = h2.headerCrc32) := by
  constructor
  · simp only [buildHeader]
    split_ifs with hz1 hz2
    · simp [hz1]
    · simp [hz1, hz2]
    · simp [hz1, hz2]
  · intro bs h2 hsome
    simp only [buildHeader] at hsome
    split_ifs at hsome with hz1 hz2
    injection hsome with hp
    injection hp with hbs hh2
    refine ⟨by rw [← hh2], by rw [← hh2], by rw [← hbs, ← hh2], ?_⟩
    rw [← hbs, ← hh2, zeroCrcField_encodeHeader]

/-- Witness for C6 on the one-entry table with supplied entry bytes. -/
theorem claim_C6_witness :
    buildHeader gpt128 (some [1, 2, 3]) = none ↔
      (crc32 ((some [1, 2, 3]).getD (buildPartEntries gpt128)) = 0 ∨
        crc32 (encodeHeader { gpt128.header with
          partEntriesCrc32 := crc32 ((some [1, 2, 3]).getD (buildPartEntries gpt128)),
          headerCrc32 := 0 }) = 0) :=
  (claim_C6 gpt128 (some [1, 2, 3]) (by decide) (by decide)).1
